import Mathlib

/-!
# Verification of the chatbot-flow-builder validation core

A shallow embedding of the flow-builder logic from
`src/components/FlowBuilder.tsx`: the graph data model, the connection
validator (`onConnect`), the save validator (`saveFlow`), node-payload
update (`updateNodeData`) and node creation (`addNode`), together with
proofs of the structural properties the design document states about
them.
-/

namespace ChatbotFlow

/-- Payload of a text node (`TextNodeData` in `TextNode.tsx`):
a message text and a display label. -/
structure TextNodeData where
  text : String
  label : String
deriving Repr, DecidableEq

/-- A partial payload (`Partial<TextNodeData>` in TypeScript): each field
is optionally present; present fields win on merge. -/
structure TextNodeDataPatch where
  text : Option String
  label : Option String
deriving Repr, DecidableEq

/-- A canvas position `{x, y}`.  Coordinates are modelled as integers;
none of the validated logic inspects them. -/
structure Position where
  x : Int
  y : Int
deriving Repr, DecidableEq

/-- A flow node: `{ id, type, position, data }` as used in
`FlowBuilder.tsx`. -/
structure Node where
  id : String
  type : String
  position : Position
  data : TextNodeData
deriving Repr, DecidableEq

/-- A flow edge.  `source`/`target` are node ids; the handle ids are
optional (`string | null` in the TypeScript types). -/
structure Edge where
  id : String
  source : String
  sourceHandle : Option String
  target : String
  targetHandle : Option String
deriving Repr, DecidableEq

/-- A proposed connection (`Connection` from the graph library): source
and target node ids plus optional handle ids; no edge id yet. -/
structure Connection where
  source : String
  sourceHandle : Option String
  target : String
  targetHandle : Option String
deriving Repr, DecidableEq

/-- A user-facing toast notification, as emitted through `toast({...})`:
either a default (success) toast or a destructive (error) toast, each
carrying a title and a description. -/
inductive Toast where
  | success (title description : String)
  | destructive (title description : String)
deriving Repr, DecidableEq

/-- The initial node list (`initialNodes`, FlowBuilder.tsx lines 33-43):
a single welcome node with id `"1"`. -/
def initialNodes : List Node :=
  [{ id := "1", type := "textNode", position := { x := 250, y := 200 },
     data := { text := "Welcome! Start building your chatbot flow.",
               label := "Welcome Message" } }]

/-- The initial edge list (`initialEdges`, FlowBuilder.tsx line 45):
empty. -/
def initialEdges : List Edge := []

/-- Modelled from the spec: the graph library helper `addEdge` called on
the accept path of `onConnect` (FlowBuilder.tsx line 69) is not part of
this repository.  Design document section 4.1: "append the proposed edge
(assigning it a unique id if absent) and return the new edge set".  The
edge carries the proposal data unchanged and a freshly assigned id. -/
def edgeOfConnection (c : Connection) : Edge :=
  { id := "xy-edge__" ++ c.source ++ (c.sourceHandle.getD "") ++ "-"
            ++ c.target ++ (c.targetHandle.getD ""),
    source := c.source, sourceHandle := c.sourceHandle,
    target := c.target, targetHandle := c.targetHandle }

/-- Modelled from the spec: `addEdge params eds` appends the proposed
edge to the edge set (design document section 4.1). -/
def addEdge (c : Connection) (edges : List Edge) : List Edge :=
  edges ++ [edgeOfConnection c]

/-- The toast shown when a connection is rejected
(FlowBuilder.tsx lines 61-65). -/
def connectionErrorToast : Toast :=
  .destructive "Connection Error"
    "Each source handle can only have one outgoing connection."

/-- `onConnect` (FlowBuilder.tsx lines 53-72): look for an existing edge
with the proposal's `(source, sourceHandle)` pair; if found, emit the
error toast and leave the edges unchanged, otherwise commit
`addEdge params edges`.  Returns the resulting edge list and the list of
toasts emitted by the call. -/
def onConnect (edges : List Edge) (params : Connection) :
    List Edge × List Toast :=
  match edges.find? (fun edge =>
      edge.source == params.source
        && edge.sourceHandle == params.sourceHandle) with
  | some _ => (edges, [connectionErrorToast])
  | none => (addEdge params edges, [])

/-- The success toast of `saveFlow` (FlowBuilder.tsx lines 145-148 and
167-170). -/
def flowSavedToast : Toast :=
  .success "Flow Saved" "Your chatbot flow has been saved successfully."

/-- The error toast of `saveFlow` (FlowBuilder.tsx lines 159-163). -/
def validationErrorToast : Toast :=
  .destructive "Validation Error"
    "Cannot save flow: More than one node has empty target handles."

/-- The save validation of `saveFlow` (FlowBuilder.tsx lines 143-171),
as a boolean: `true` (save succeeds) when `nodes.length <= 1`, and
otherwise when at most one node has no incoming edge
(`nodesWithoutTargets.length > 1` is the rejection test). -/
def validateForSave (nodes : List Node) (edges : List Edge) : Bool :=
  if nodes.length ≤ 1 then true
  else
    let nodesWithoutTargets := nodes.filter (fun node =>
      !(edges.any (fun edge => edge.target == node.id)))
    !(nodesWithoutTargets.length > 1)

/-- `saveFlow` (FlowBuilder.tsx lines 143-171): the toasts emitted by one
save attempt, mirroring the three early-return branches of the source. -/
def saveFlow (nodes : List Node) (edges : List Edge) : List Toast :=
  if nodes.length ≤ 1 then [flowSavedToast]
  else
    let nodesWithoutTargets := nodes.filter (fun node =>
      !(edges.any (fun edge => edge.target == node.id)))
    if nodesWithoutTargets.length > 1 then [validationErrorToast]
    else [flowSavedToast]

/-- The authoritative component state owned by the flow canvas: the node
and edge collections held in `useNodesState` / `useEdgesState`. -/
structure FlowState where
  nodes : List Node
  edges : List Edge
deriving Repr, DecidableEq

/-- `saveFlow` as a state transformer: the callback reads `nodes` and
`edges` and emits toasts; it contains no call to `setNodes` or
`setEdges`, so the resulting state is the input state. -/
def saveFlowRun (s : FlowState) : FlowState × List Toast :=
  (s, saveFlow s.nodes s.edges)

/-- Merging a partial payload into a payload, as the spread
`{ ...node.data, ...newData }` does: present fields of the partial
payload win. -/
def mergeData (d : TextNodeData) (p : TextNodeDataPatch) : TextNodeData :=
  { text := p.text.getD d.text, label := p.label.getD d.label }

/-- `updateNodeData` (FlowBuilder.tsx lines 85-96), restricted to its
effect on the node list: map over the nodes, replacing the payload of
the node whose id matches by the merged payload. -/
def updateNodeData (nodes : List Node) (nodeId : String)
    (newData : TextNodeDataPatch) : List Node :=
  nodes.map (fun node =>
    if node.id == nodeId then { node with data := mergeData node.data newData }
    else node)

/-- The id template of `addNode` (FlowBuilder.tsx line 130):
the interpolation of the template literal with `nodes.length = count`
and `Date.now() = now`. -/
def mkNodeId (count : Nat) (now : Nat) : String :=
  Nat.repr (count + 1) ++ "-" ++ Nat.repr now

/-- `addNode` (FlowBuilder.tsx lines 128-140): append a node whose id is
the template of line 130 and whose payload is the type-dependent default
of lines 133-136.  `Date.now()` is modelled as the input `now`. -/
def addNode (nodes : List Node) (type : String) (position : Position)
    (now : Nat) : List Node :=
  nodes ++ [{ id := mkNodeId nodes.length now, type := type,
              position := position,
              data := { text := if type == "textNode"
                          then "Click to edit this message..." else "",
                        label := if type == "textNode"
                          then "Message" else "Node" } }]

/-- An editing operation on the node list: adding a node (with the
timestamp `Date.now()` observed by the call), or removing a node by id.
Removal is modelled from the spec ("destroyed on explicit delete",
design document section 3): the repository delegates node deletion to
the graph library, which drops the node with the given id. -/
inductive NodeOp where
  | add (type : String) (position : Position) (now : Nat)
  | remove (id : String)
deriving Repr, DecidableEq

/-- Apply one editing operation to the node list. -/
def applyNodeOp (nodes : List Node) : NodeOp → List Node
  | .add type position now => addNode nodes type position now
  | .remove i => nodes.filter (fun n => n.id ≠ i)

/-- Apply a sequence of editing operations, oldest first. -/
def runNodeOps (ops : List NodeOp) (nodes : List Node) : List Node :=
  ops.foldl applyNodeOp nodes

/-- Apply a sequence of proposed connections, oldest first, keeping only
the committed edge state of each `onConnect` call. -/
def runConnections (conns : List Connection) (edges : List Edge) :
    List Edge :=
  conns.foldl (fun eds c => (onConnect eds c).1) edges


/-! ## Sample data used by the concrete witnesses -/

/-- A sample node with id `"1"`. -/
def nodeA : Node :=
  { id := "1", type := "textNode", position := { x := 0, y := 0 },
    data := { text := "a", label := "A" } }

/-- A sample node with id `"2"`. -/
def nodeB : Node :=
  { id := "2", type := "textNode", position := { x := 10, y := 0 },
    data := { text := "b", label := "B" } }

/-- A sample edge from node `"1"` to node `"2"`. -/
def edgeAB : Edge :=
  { id := "e1", source := "1", sourceHandle := none,
    target := "2", targetHandle := none }

/-- A sample edge from node `"2"` to node `"1"`. -/
def edgeBA : Edge :=
  { id := "e2", source := "2", sourceHandle := none,
    target := "1", targetHandle := none }

/-- A sample connection from node `"1"` to node `"2"`. -/
def connAB : Connection :=
  { source := "1", sourceHandle := none,
    target := "2", targetHandle := none }

/-- A sample self-loop connection on node `"1"`. -/
def connLoop : Connection :=
  { source := "1", sourceHandle := none,
    target := "1", targetHandle := none }

/-- A sample payload patch that sets only the text field. -/
def patchText : TextNodeDataPatch := { text := some "hi", label := none }

/-! ## Helper lemmas about the connection validator -/

/-- Characterisation of one `onConnect` call: it rejects exactly when an
existing edge carries the proposal's `(source, sourceHandle)` pair, and
otherwise appends the proposed edge. -/
theorem onConnect_eq (edges : List Edge) (params : Connection) :
    onConnect edges params =
      if ∃ e ∈ edges, e.source = params.source
          ∧ e.sourceHandle = params.sourceHandle
      then (edges, [connectionErrorToast])
      else (edges ++ [edgeOfConnection params], []) := by
  unfold onConnect
  rcases hfind : edges.find? (fun edge =>
      edge.source == params.source
        && edge.sourceHandle == params.sourceHandle) with _ | e
  · simp only [hfind]
    rw [List.find?_eq_none] at hfind
    rw [if_neg]
    · rfl
    · rintro ⟨e, he, h₁, h₂⟩
      exact hfind e he (by simp [h₁, h₂])
  · simp only [hfind]
    have hmem := List.mem_of_find?_eq_some hfind
    have hp := List.find?_some hfind
    simp only [Bool.and_eq_true, beq_iff_eq] at hp
    rw [if_pos ⟨e, hmem, hp.1, hp.2⟩]

/-! ## Claim theorems: the save validator -/

/-- C1: `validateForSave` returns Ok if and only if there is at most one
node, or at most one node has zero incoming edges (no edge whose target
equals the node's id); for more than one node it rejects exactly when
strictly more than one node has zero incoming edges, regardless of any
other edge content. -/
theorem validateForSave_ok_iff (nodes : List Node) (edges : List Edge) :
    validateForSave nodes edges = true ↔
      (nodes.length ≤ 1 ∨
        nodes.countP (fun n => decide (∀ e ∈ edges, e.target ≠ n.id)) ≤ 1) := by
  unfold validateForSave
  split
  · rename_i h
    simp [h]
  · rename_i h
    have hcount : nodes.countP (fun n => decide (∀ e ∈ edges, e.target ≠ n.id))
        = (nodes.filter (fun node =>
            !(edges.any (fun edge => edge.target == node.id)))).length := by
      rw [← List.countP_eq_length_filter]
      apply List.countP_congr
      intro n _
      simp [List.any_eq_true]
    constructor
    · intro hv
      right
      rw [hcount]
      simp only [Bool.not_eq_true', decide_eq_false_iff_not, Nat.not_lt] at hv
      omega
    · rintro (hlen | hle)
      · exact absurd hlen h
      · rw [hcount] at hle
        simp only [Bool.not_eq_true', decide_eq_false_iff_not, Nat.not_lt]
        omega

/-- C10: save validation does not require an entry node: when the flow
has more than one node and every node has at least one incoming edge
(for example a cycle), `validateForSave` returns Ok. -/
theorem validateForSave_ok_of_all_incoming (nodes : List Node)
    (edges : List Edge) (hlen : 1 < nodes.length)
    (hin : ∀ n ∈ nodes, ∃ e ∈ edges, e.target = n.id) :
    validateForSave nodes edges = true := by
  unfold validateForSave
  rw [if_neg (by omega)]
  have hfil : nodes.filter (fun node =>
      !(edges.any (fun edge => edge.target == node.id))) = [] := by
    rw [List.filter_eq_nil_iff]
    intro n hn
    obtain ⟨e, he, het⟩ := hin n hn
    simp only [Bool.not_eq_true', Bool.not_eq_false, List.any_eq_true,
      beq_iff_eq]
    exact ⟨e, he, het⟩
  rw [hfil]
  rfl

/-- Witness for C10: a two-node cycle passes save validation. -/
theorem validateForSave_ok_of_all_incoming_witness :
    1 < ([nodeA, nodeB] : List Node).length
    ∧ validateForSave [nodeA, nodeB] [edgeAB, edgeBA] = true :=
  ⟨by decide, validateForSave_ok_of_all_incoming [nodeA, nodeB]
    [edgeAB, edgeBA] (by decide) (by decide)⟩

/-- C6: the save validation is a pure function of the state: it leaves
the node and edge collections unchanged, and running it a second time on
the resulting state emits the same toasts as the first run. -/
theorem saveFlow_pure (s : FlowState) :
    (saveFlowRun s).1 = s
    ∧ (saveFlowRun ((saveFlowRun s).1)).2 = (saveFlowRun s).2 :=
  ⟨rfl, rfl⟩

/-! ## Claim theorems: the connection validator -/

/-- C2: `onConnect` rejects (emitting the connection error toast and
keeping the edges) exactly when an existing edge carries the proposal's
`(source, sourceHandle)` pair, and otherwise appends the proposed
edge to the edge set. -/
theorem onConnect_rejects_iff_source_conflict (edges : List Edge)
    (params : Connection) :
    onConnect edges params =
      if ∃ e ∈ edges, e.source = params.source
          ∧ e.sourceHandle = params.sourceHandle
      then (edges, [connectionErrorToast])
      else (edges ++ [edgeOfConnection params], []) :=
  onConnect_eq edges params

/-- C4: when `onConnect` rejects a proposal because an existing edge
already uses its `(source, sourceHandle)` pair, the edge set after the
call equals the edge set before the call. -/
theorem onConnect_reject_preserves_edges (edges : List Edge)
    (params : Connection)
    (h : ∃ e ∈ edges, e.source = params.source
        ∧ e.sourceHandle = params.sourceHandle) :
    (onConnect edges params).1 = edges := by
  rw [onConnect_eq, if_pos h]

/-- Witness for C4: a conflicting proposal leaves a one-edge set
unchanged. -/
theorem onConnect_reject_preserves_edges_witness :
    (∃ e ∈ [edgeAB], e.source = connAB.source
        ∧ e.sourceHandle = connAB.sourceHandle)
    ∧ (onConnect [edgeAB] connAB).1 = [edgeAB] :=
  ⟨by decide, onConnect_reject_preserves_edges [edgeAB] connAB (by decide)⟩

/-- C5: a proposed self-loop (source node id equal to target node id) is
accepted whenever no existing edge uses its `(source, sourceHandle)`
pair: the validator applies no additional filter to self-loops. -/
theorem onConnect_accepts_selfLoop (edges : List Edge) (params : Connection)
    (hloop : params.source = params.target)
    (h : ¬ ∃ e ∈ edges, e.source = params.source
        ∧ e.sourceHandle = params.sourceHandle) :
    onConnect edges params = (edges ++ [edgeOfConnection params], []) := by
  rw [onConnect_eq, if_neg h]

/-- Witness for C5: a self-loop on node `"1"` is accepted on the empty
edge set. -/
theorem onConnect_accepts_selfLoop_witness :
    connLoop.source = connLoop.target
    ∧ onConnect [] connLoop = ([edgeOfConnection connLoop], []) :=
  ⟨rfl, onConnect_accepts_selfLoop [] connLoop rfl (by decide)⟩

/-! ## Claim theorems: notifications -/

/-- Counterexample to C9: an accepted connection emits no toast at all
(the accept path of `onConnect`, FlowBuilder.tsx line 69, shows no
notification), so it is not the case that every `onConnect` call emits
exactly one notification. -/
theorem onConnect_accept_toastless_counterexample :
    ¬ ((onConnect initialEdges connAB).2.length = 1) := by decide

/-- C9 (amended): every `saveFlow` call emits exactly one toast, while
`onConnect` emits exactly one (failure) toast when it rejects and none
when it accepts. -/
theorem toast_count_per_call (nodes : List Node) (edges : List Edge)
    (params : Connection) :
    (saveFlow nodes edges).length = 1
    ∧ ((onConnect edges params).2.length =
        if ∃ e ∈ edges, e.source = params.source
            ∧ e.sourceHandle = params.sourceHandle
        then 1 else 0) := by
  constructor
  · unfold saveFlow
    split
    · rfl
    · dsimp only
      split <;> rfl
  · rw [onConnect_eq]
    split <;> rfl

/-! ## Claim theorems: payload update -/

/-- C7: `updateNodeData` relates each input node to the corresponding
output node: the id, type and position are kept, the node whose id
matches gets the merged payload (patch fields winning), every other node
is entirely unchanged; and when no node has the given id the node list
is returned unchanged. -/
theorem updateNodeData_spec (nodes : List Node) (nodeId : String)
    (newData : TextNodeDataPatch) :
    List.Forall₂ (fun n n' =>
        n'.id = n.id ∧ n'.type = n.type ∧ n'.position = n.position
        ∧ (n.id = nodeId → n'.data = mergeData n.data newData)
        ∧ (n.id ≠ nodeId → n' = n))
      nodes (updateNodeData nodes nodeId newData)
    ∧ ((∀ n ∈ nodes, n.id ≠ nodeId) →
        updateNodeData nodes nodeId newData = nodes) := by
  constructor
  · unfold updateNodeData
    rw [List.forall₂_map_right_iff, List.forall₂_same]
    intro n _
    by_cases h : n.id = nodeId
    · simp [h]
    · simp [h]
  · intro hall
    unfold updateNodeData
    have hid : ∀ n ∈ nodes,
        (if n.id == nodeId
         then { n with data := mergeData n.data newData } else n) = n := by
      intro n hn
      simp [hall n hn]
    calc nodes.map (fun node =>
          if node.id == nodeId
          then { node with data := mergeData node.data newData } else node)
        = nodes.map id := List.map_congr_left (by simpa using hid)
      _ = nodes := List.map_id nodes

/-- Witness for C7: updating an id that no node carries is a no-op. -/
theorem updateNodeData_spec_witness :
    (∀ n ∈ [nodeA], n.id ≠ "77")
    ∧ updateNodeData [nodeA] "77" patchText = [nodeA] :=
  ⟨by decide, (updateNodeData_spec [nodeA] "77" patchText).2 (by decide)⟩

/-! ## The fan-out invariant -/

/-- The source-handle fan-out invariant: no two edges at distinct
positions of the list share the same `(source, sourceHandle)` pair. -/
def fanOutOk (edges : List Edge) : Prop :=
  edges.Pairwise (fun e₁ e₂ =>
    ¬ (e₁.source = e₂.source ∧ e₁.sourceHandle = e₂.sourceHandle))

/-- One `onConnect` call preserves the fan-out invariant. -/
theorem fanOutOk_onConnect (edges : List Edge) (params : Connection)
    (h : fanOutOk edges) : fanOutOk (onConnect edges params).1 := by
  rw [onConnect_eq]
  split
  · exact h
  · rename_i hno
    dsimp only
    rw [fanOutOk, List.pairwise_append]
    refine ⟨h, List.pairwise_singleton _ _, ?_⟩
    intro e he e' he'
    rw [List.mem_singleton] at he'
    subst he'
    rintro ⟨h₁, h₂⟩
    exact hno ⟨e, he, h₁, h₂⟩

/-- A sequence of `onConnect` calls preserves the fan-out invariant. -/
theorem fanOutOk_runConnections (conns : List Connection)
    (edges : List Edge) (h : fanOutOk edges) :
    fanOutOk (runConnections conns edges) := by
  induction conns generalizing edges with
  | nil => exact h
  | cons c rest ih => exact ih _ (fanOutOk_onConnect edges c h)

/-- C3: starting from the initial (empty) edge set, no sequence of
`onConnect` calls can produce two distinct edges sharing the same
`(source, sourceHandle)` pair. -/
theorem runConnections_fanOut_le_one (conns : List Connection) :
    ∀ e₁ ∈ runConnections conns initialEdges,
      ∀ e₂ ∈ runConnections conns initialEdges,
        e₁.source = e₂.source → e₁.sourceHandle = e₂.sourceHandle →
          e₁ = e₂ := by
  intro e₁ h₁ e₂ h₂ hs hh
  have hinv : fanOutOk (runConnections conns initialEdges) :=
    fanOutOk_runConnections conns initialEdges (List.Pairwise.nil)
  by_contra hne
  have hsym : Symmetric (fun e₁ e₂ : Edge =>
      ¬ (e₁.source = e₂.source ∧ e₁.sourceHandle = e₂.sourceHandle)) := by
    intro a b hab ⟨x, y⟩
    exact hab ⟨x.symm, y.symm⟩
  exact (hinv.forall hsym) h₁ h₂ hne ⟨hs, hh⟩

/-- Witness for C3: after committing one connection, the committed edge
is the unique edge with its `(source, sourceHandle)` pair. -/
theorem runConnections_fanOut_le_one_witness :
    edgeOfConnection connAB ∈ runConnections [connAB] initialEdges
    ∧ edgeOfConnection connAB = edgeOfConnection connAB :=
  ⟨by decide,
    runConnections_fanOut_le_one [connAB] (edgeOfConnection connAB)
      (by decide) (edgeOfConnection connAB) (by decide) rfl rfl⟩

/-! ## Decimal representation of node-id components

`addNode` builds node ids by string interpolation of two decimal
numbers around a dash.  The lemmas below establish what the uniqueness
argument needs: decimal digit strings contain no dash, and the decimal
representation is injective. -/

/-- The decimal digit characters of `n`, most significant first: the
recursion that `Nat.toDigitsCore` implements with fuel. -/
def natDigits (n : Nat) : List Char :=
  if n < 10 then [Nat.digitChar n]
  else natDigits (n / 10) ++ [Nat.digitChar (n % 10)]
termination_by n
decreasing_by exact Nat.div_lt_self (by omega) (by omega)

/-- Unfolding of `natDigits` on a single-digit number. -/
theorem natDigits_lt (n : Nat) (h : n < 10) :
    natDigits n = [Nat.digitChar n] := by
  rw [natDigits, if_pos h]

/-- Unfolding of `natDigits` on a multi-digit number. -/
theorem natDigits_ge (n : Nat) (h : ¬ n < 10) :
    natDigits n = natDigits (n / 10) ++ [Nat.digitChar (n % 10)] := by
  conv_lhs => rw [natDigits]
  rw [if_neg h]

/-- `Nat.toDigitsCore` with enough fuel computes `natDigits`. -/
theorem toDigitsCore_eq (fuel : Nat) : ∀ (n : Nat) (ds : List Char),
    n < fuel → Nat.toDigitsCore 10 fuel n ds = natDigits n ++ ds := by
  induction fuel with
  | zero => omega
  | succ f ih =>
    intro n ds hn
    unfold Nat.toDigitsCore
    by_cases h10 : n / 10 = 0
    · have hlt : n < 10 := by omega
      rw [if_pos h10, natDigits_lt n hlt, Nat.mod_eq_of_lt hlt]
      rfl
    · have hge : 10 ≤ n := by omega
      have hdiv : n / 10 < f := by
        have := Nat.div_lt_self (show 0 < n by omega) (show 1 < 10 by omega)
        omega
      rw [if_neg h10, ih (n / 10) _ hdiv, natDigits_ge n (by omega),
        List.append_assoc]
      rfl

/-- `Nat.repr` is the string of the digit characters of `natDigits`. -/
theorem natRepr_eq (n : Nat) : Nat.repr n = (natDigits n).asString := by
  unfold Nat.repr Nat.toDigits
  rw [toDigitsCore_eq (n + 1) n [] (Nat.lt_succ_self n), List.append_nil]

/-- No decimal digit character is the dash. -/
theorem digitChar_ne_dash (n : Nat) : Nat.digitChar n ≠ '-' := by
  by_cases h : n < 16
  · interval_cases n <;> decide
  · unfold Nat.digitChar
    repeat rw [if_neg (by omega)]
    decide

/-- Decimal digit strings contain no dash. -/
theorem dash_not_mem_natDigits (n : Nat) : '-' ∉ natDigits n := by
  induction n using Nat.strong_induction_on with
  | _ n ih =>
    rw [natDigits]
    split
    · simp only [List.mem_singleton]
      exact fun h => digitChar_ne_dash n h.symm
    · rename_i h
      simp only [List.mem_append, List.mem_singleton]
      rintro (hm | hm)
      · exact ih (n / 10) (Nat.div_lt_self (by omega) (by omega)) hm
      · exact digitChar_ne_dash (n % 10) hm.symm

/-- Value of a decimal digit character. -/
def digitVal (c : Char) : Nat :=
  if c = '1' then 1 else if c = '2' then 2 else if c = '3' then 3 else
  if c = '4' then 4 else if c = '5' then 5 else if c = '6' then 6 else
  if c = '7' then 7 else if c = '8' then 8 else if c = '9' then 9 else 0

/-- `digitVal` inverts `Nat.digitChar` on decimal digits. -/
theorem digitVal_digitChar (d : Nat) (h : d < 10) :
    digitVal (Nat.digitChar d) = d := by
  interval_cases d <;> decide

/-- Parse a digit-character list back into a number, accumulating from
the most significant digit. -/
def parseDigits (acc : Nat) : List Char → Nat
  | [] => acc
  | c :: cs => parseDigits (acc * 10 + digitVal c) cs

theorem parseDigits_append (acc : Nat) (l₁ l₂ : List Char) :
    parseDigits acc (l₁ ++ l₂) = parseDigits (parseDigits acc l₁) l₂ := by
  induction l₁ generalizing acc with
  | nil => rfl
  | cons c cs ih =>
    simp only [List.cons_append, parseDigits]
    exact ih (acc * 10 + digitVal c)

/-- Round trip: parsing the digits of `n` recovers `n`. -/
theorem parseDigits_natDigits (n : Nat) :
    parseDigits 0 (natDigits n) = n := by
  induction n using Nat.strong_induction_on with
  | _ n ih =>
    rw [natDigits]
    split
    · rename_i h
      simp [parseDigits, digitVal_digitChar n h]
    · rename_i h
      rw [parseDigits_append, ih (n / 10) (Nat.div_lt_self (by omega) (by omega))]
      simp only [parseDigits, digitVal_digitChar (n % 10) (Nat.mod_lt _ (by omega))]
      omega

/-- The decimal digit-character list determines the number. -/
theorem natDigits_inj (m n : Nat) (h : natDigits m = natDigits n) :
    m = n := by
  have hm := parseDigits_natDigits m
  rw [h, parseDigits_natDigits] at hm
  exact hm.symm

/-- `Nat.repr` is injective. -/
theorem natRepr_inj (m n : Nat) (h : Nat.repr m = Nat.repr n) : m = n := by
  rw [natRepr_eq, natRepr_eq] at h
  exact natDigits_inj m n (String.ext_iff.mp h)

/-- The decimal representation of a number contains no dash. -/
theorem dash_not_mem_repr (n : Nat) : '-' ∉ (Nat.repr n).data := by
  rw [natRepr_eq]
  exact dash_not_mem_natDigits n

/-- Splitting at a marker character absent from both prefixes is
unambiguous. -/
theorem append_marker_inj (a₁ : List Char) : ∀ (a₂ b₁ b₂ : List Char),
    '-' ∉ a₁ → '-' ∉ a₂ → a₁ ++ '-' :: b₁ = a₂ ++ '-' :: b₂ →
      a₁ = a₂ ∧ b₁ = b₂ := by
  induction a₁ with
  | nil =>
    intro a₂ b₁ b₂ _ h₂ h
    cases a₂ with
    | nil => simpa using h
    | cons c cs =>
      simp only [List.nil_append, List.cons_append, List.cons.injEq] at h
      exact absurd (h.1 ▸ List.mem_cons_self c cs) h₂
  | cons c cs ih =>
    intro a₂ b₁ b₂ h₁ h₂ h
    cases a₂ with
    | nil =>
      simp only [List.cons_append, List.nil_append, List.cons.injEq] at h
      exact absurd (h.1 ▸ List.mem_cons_self c cs) h₁
    | cons d ds =>
      simp only [List.cons_append, List.cons.injEq] at h
      obtain ⟨hcd, hrest⟩ := h
      have hr := ih ds b₁ b₂
        (fun hm => h₁ (List.mem_cons_of_mem _ hm))
        (fun hm => h₂ (List.mem_cons_of_mem _ hm)) hrest
      exact ⟨by rw [hcd, hr.1], hr.2⟩

/-- The characters of a generated node id: the decimal count part, a
dash, then the decimal timestamp part. -/
theorem mkNodeId_data (count now : Nat) :
    (mkNodeId count now).data
      = (Nat.repr (count + 1)).data ++ '-' :: (Nat.repr now).data := by
  unfold mkNodeId
  rw [String.data_append, String.data_append, List.append_assoc]
  rfl

/-- Two generated node ids agree only if their timestamps agree. -/
theorem mkNodeId_time_inj (k k' t t' : Nat)
    (h : mkNodeId k t = mkNodeId k' t') : t = t' := by
  have hd := String.ext_iff.mp h
  rw [mkNodeId_data, mkNodeId_data] at hd
  have hs := append_marker_inj _ _ _ _
    (dash_not_mem_repr (k + 1)) (dash_not_mem_repr (k' + 1)) hd
  exact natRepr_inj t t' (String.ext hs.2)

/-- A generated node id is never the initial node's id `"1"`. -/
theorem mkNodeId_ne_one (k t : Nat) : mkNodeId k t ≠ "1" := by
  intro h
  have hm : '-' ∈ (mkNodeId k t).data := by
    rw [mkNodeId_data]
    exact List.mem_append_right _ (List.mem_cons_self _ _)
  rw [h] at hm
  exact absurd hm (by decide)

/-- The timestamps observed by the `add` operations of a sequence, in
order. -/
def addTimes : List NodeOp → List Nat
  | [] => []
  | NodeOp.add _ _ now :: ops => now :: addTimes ops
  | NodeOp.remove _ :: ops => addTimes ops

/-- Invariant step: running operations with pairwise-distinct add
timestamps preserves distinctness of ids, provided no current id uses a
future timestamp. -/
theorem runNodeOps_unique_aux (ops : List NodeOp) : ∀ (nodes : List Node),
    (nodes.map Node.id).Pairwise (· ≠ ·) →
    (∀ n ∈ nodes, ∀ t ∈ addTimes ops, ∀ k, n.id ≠ mkNodeId k t) →
    (addTimes ops).Pairwise (· ≠ ·) →
    ((runNodeOps ops nodes).map Node.id).Pairwise (· ≠ ·) := by
  induction ops with
  | nil =>
    intro nodes hids _ _
    exact hids
  | cons op rest ih =>
    intro nodes hids hfuture htimes
    cases op with
    | add ty pos now =>
      have hstep : runNodeOps (NodeOp.add ty pos now :: rest) nodes
          = runNodeOps rest (addNode nodes ty pos now) := rfl
      rw [hstep]
      have hhead := (List.pairwise_cons.mp htimes).1
      apply ih (addNode nodes ty pos now) ?hids ?hfut
        (List.pairwise_cons.mp htimes).2
      case hids =>
        unfold addNode
        rw [List.map_append, List.pairwise_append]
        refine ⟨hids, by simp, ?_⟩
        intro a ha b hb
        simp only [List.map_cons, List.map_nil, List.mem_singleton] at hb
        subst hb
        obtain ⟨n, hn, rfl⟩ := List.mem_map.mp ha
        exact hfuture n hn now (List.mem_cons_self _ _) nodes.length
      case hfut =>
        intro n hn t ht k
        unfold addNode at hn
        rcases List.mem_append.mp hn with hmem | hmem
        · exact hfuture n hmem t (List.mem_cons_of_mem _ ht) k
        · rw [List.mem_singleton] at hmem
          subst hmem
          intro he
          exact hhead t ht (mkNodeId_time_inj _ _ _ _ he)
    | remove i =>
      have hstep : runNodeOps (NodeOp.remove i :: rest) nodes
          = runNodeOps rest (nodes.filter (fun n => n.id ≠ i)) := rfl
      rw [hstep]
      apply ih _ ?hids ?hfut htimes
      case hids =>
        exact List.Pairwise.sublist
          ((List.filter_sublist nodes).map Node.id) hids
      case hfut =>
        intro n hn t ht k
        exact hfuture n (List.mem_of_mem_filter hn) t ht k

/-- Counterexample to C8: removing the initial node between two
`addNode` calls that observe the same `Date.now()` timestamp yields two
nodes with the same id `"2-5"` — node ids are not unique over sequences
of node additions and removals. -/
theorem runNodeOps_duplicate_id_counterexample :
    ¬ ((runNodeOps [NodeOp.add "textNode" { x := 0, y := 0 } 5,
          NodeOp.remove "1",
          NodeOp.add "textNode" { x := 0, y := 0 } 5] initialNodes).map
        Node.id).Pairwise (· ≠ ·) := by decide

/-- C8 (amended): in every state reachable from the initial state by
`addNode` and node-removal operations, the node ids are pairwise
distinct, provided the timestamps observed by the `addNode` calls are
pairwise distinct. -/
theorem runNodeOps_unique_ids (ops : List NodeOp)
    (h : (addTimes ops).Pairwise (· ≠ ·)) :
    ((runNodeOps ops initialNodes).map Node.id).Pairwise (· ≠ ·) := by
  apply runNodeOps_unique_aux ops initialNodes (by decide) ?_ h
  intro n hn t ht k
  have hid : n.id = "1" := by
    simp only [initialNodes, List.mem_singleton] at hn
    rw [hn]
  rw [hid]
  exact fun he => mkNodeId_ne_one k t he.symm

/-- Witness for C8 (amended): two adds at distinct timestamps around a
removal keep all ids distinct. -/
theorem runNodeOps_unique_ids_witness :
    ((runNodeOps [NodeOp.add "textNode" { x := 0, y := 0 } 5,
        NodeOp.remove "1",
        NodeOp.add "textNode" { x := 0, y := 0 } 6] initialNodes).map
      Node.id).Pairwise (· ≠ ·) :=
  runNodeOps_unique_ids _ (by decide)

end ChatbotFlow

